import Mathlib

/-!
Shallow embedding of `src/libgpiodSpiBitbang.cpp` (class `LibgpiodSpiBitbang`),
a software ("bitbang") SPI master driving four GPIO lines (CS, SCK, MOSI, MISO).

The engine state mirrors the C++ object's mutable fields (`_curr_cs`,
`_curr_sck`, `_curr_mosi`, `_cs_mode`) and additionally records, for
verification purposes, the sequence of hardware interactions performed
(line writes, MISO reads, chip open, line requests) and a counter of MISO
reads (`misoIdx`) used to index the simulated MISO input.

The environment `Env` supplies the simulated hardware responses: `miso`
gives the value sampled on the MISO line as a function of the current
engine state (so a loopback harness, where MISO mirrors the last driven
MOSI value, is the instance `loopbackEnv`), and `wfail` tells whether the
n-th line write reports a failure (the C++ code only logs such failures).
-/

/-- The three output lines driven by the engine. -/
inductive Line where
  | cs
  | sck
  | mosi
deriving DecidableEq, Repr

/-- Observable hardware interactions, recorded in order. -/
inductive Event where
  /-- A `gpiod_line_set_value` call on an output line: value and whether the
  underlying call succeeded. -/
  | write (l : Line) (v : Int) (ok : Bool)
  /-- A `gpiod_line_get_value` call on the MISO line, with the sampled value. -/
  | readMiso (v : Bool)
  /-- `gpiod_chip_open` on the given device path. -/
  | openChip (dev : String)
  /-- `get_line` (a `gpiod_line_request`): pin, requested output value,
  whether the line is requested as an output. -/
  | reqLine (pin : Int) (v : Int) (isOut : Bool)
deriving DecidableEq, Repr

/-- CS handling mode, mirroring `enum SPI_CS_mode`. -/
inductive CSMode where
  | auto
  | manual
deriving DecidableEq, Repr

/-- Engine state: the cached drive values `_curr_cs`, `_curr_sck`,
`_curr_mosi`, the `_cs_mode` flag, plus the recorded interaction trace,
the count of MISO reads so far (`misoIdx`) and of line writes so far
(`wrIdx`). -/
structure SpiState where
  curr_cs : Int
  curr_sck : Int
  curr_mosi : Int
  cs_mode : CSMode
  misoIdx : Nat
  wrIdx : Nat
  trace : List Event
deriving DecidableEq, Repr

/-- Simulated hardware environment. -/
structure Env where
  /-- Value sampled on MISO, as a function of the engine state at the
  moment of the read. -/
  miso : SpiState → Bool
  /-- Whether the n-th line write reports a failure. -/
  wfail : Nat → Bool

/-- Events produced by `update_pins` for the MOSI line: a write happens
iff the requested value differs from the cached one. -/
def dMosi (e : Env) (mosi : Int) (s : SpiState) : List Event :=
  if mosi = s.curr_mosi then [] else [Event.write Line.mosi mosi (!(e.wfail s.wrIdx))]

/-- Events produced by `update_pins` for the SCK line (checked after MOSI,
as in the source). -/
def dSck (e : Env) (sck mosi : Int) (s : SpiState) : List Event :=
  if sck = s.curr_sck then []
  else [Event.write Line.sck sck (!(e.wfail (s.wrIdx + (dMosi e mosi s).length)))]

/-- Events produced by `update_pins` for the CS line (checked last, as in
the source). -/
def dCs (e : Env) (cs sck mosi : Int) (s : SpiState) : List Event :=
  if cs = s.curr_cs then []
  else [Event.write Line.cs cs
    (!(e.wfail (s.wrIdx + (dMosi e mosi s).length + (dSck e sck mosi s).length)))]

/-- All events of one `update_pins` call, in source order (MOSI, SCK, CS). -/
def dAll (e : Env) (cs sck mosi : Int) (s : SpiState) : List Event :=
  dMosi e mosi s ++ dSck e sck mosi s ++ dCs e cs sck mosi s

/-- `LibgpiodSpiBitbang::update_pins`: writes each output line only when the
requested value differs from the cached one (MOSI, then SCK, then CS), then
unconditionally updates the cache to the requested values and returns 0. A
failed write is only logged, so it merely shows as `ok = false` in the trace. -/
def update_pins (e : Env) (cs sck mosi : Int) (s : SpiState) : Int × SpiState :=
  (0,
   { curr_cs := cs
     curr_sck := sck
     curr_mosi := mosi
     cs_mode := s.cs_mode
     misoIdx := s.misoIdx
     wrIdx := s.wrIdx + (dAll e cs sck mosi s).length
     trace := s.trace ++ dAll e cs sck mosi s })

/-- `LibgpiodSpiBitbang::read_miso`: samples the MISO line. -/
def read_miso (e : Env) (s : SpiState) : Bool × SpiState :=
  (e.miso s,
   { s with misoIdx := s.misoIdx + 1, trace := s.trace ++ [Event.readMiso (e.miso s)] })

/-- `LibgpiodSpiBitbang::setCs`: drive CS to 1, keeping SCK and MOSI. -/
def setCs (e : Env) (s : SpiState) : SpiState :=
  (update_pins e 1 s.curr_sck s.curr_mosi s).2

/-- `LibgpiodSpiBitbang::clearCs`: drive CS to 0, keeping SCK and MOSI. -/
def clearCs (e : Env) (s : SpiState) : SpiState :=
  (update_pins e 0 s.curr_sck s.curr_mosi s).2

/-- One iteration of the inner bit loop of `spi_wr_and_rd` (mode 0):
drive SCK low with MOSI = MSB of `wv`, shift `wv`, drive SCK high, sample
MISO into `rv`, drive SCK low again. Returns the updated `(wv, rv)` (both
`uint8_t`, hence the `% 256`) and state. -/
def spi_bit (e : Env) (wv rv : Nat) (s : SpiState) : Nat × Nat × SpiState :=
  let s1 := (update_pins e s.curr_cs 0 (if wv &&& 128 ≠ 0 then 1 else 0) s).2
  let wv1 := (wv * 2) % 256
  let s2 := (update_pins e s1.curr_cs 1 s1.curr_mosi s1).2
  let b := (read_miso e s2).1
  let s3 := (read_miso e s2).2
  let rv1 := (rv * 2 + (if b then 1 else 0)) % 256
  let s4 := (update_pins e s3.curr_cs 0 s3.curr_mosi s3).2
  (wv1, rv1, s4)

/-- The inner bit loop of `spi_wr_and_rd`, iterated `n` times. -/
def spi_bits (e : Env) : Nat → Nat → Nat → SpiState → Nat × SpiState
  | 0, _, rv, s => (rv, s)
  | n + 1, wv, rv, s =>
    let r := spi_bit e wv rv s
    spi_bits e n r.1 r.2.1 r.2.2

/-- One byte of `spi_wr_and_rd`: 8 bit iterations, MSB first, starting from
`rv = 0`; `w % 256` models loading the byte into the `uint8_t` `wv`. -/
def spi_byte (e : Env) (w : Nat) (s : SpiState) : Nat × SpiState :=
  spi_bits e 8 (w % 256) 0 s

/-- The outer byte loop of `spi_wr_and_rd`: for each of `cnt` bytes, take the
next write byte (or 0 when the write buffer is absent, as for a NULL
`writearr`), transfer it, and collect the sampled byte. -/
def spi_bytes (e : Env) : Nat → Option (List Nat) → SpiState → List Nat × SpiState
  | 0, _, s => ([], s)
  | n + 1, wp, s =>
    let wv := match wp with
      | none => 0
      | some l => l.headD 0
    let r1 := spi_byte e wv s
    let r2 := spi_bytes e n (wp.map List.tail) r1.2
    (r1.1 :: r2.1, r2.2)

/-- `LibgpiodSpiBitbang::spi_wr_and_rd`: in AUTO CS mode assert CS before and
deassert after; clock `writecnt` bytes; the sampled bytes are returned iff a
read buffer is present (`readPresent`); always returns status 0. -/
def spi_wr_and_rd (e : Env) (writecnt : Nat) (writearr : Option (List Nat))
    (readPresent : Bool) (s : SpiState) : Int × Option (List Nat) × SpiState :=
  let s0 := if s.cs_mode = CSMode.auto then clearCs e s else s
  let r := spi_bytes e writecnt writearr s0
  let s2 := if r.2.cs_mode = CSMode.auto then setCs e r.2 else r.2
  (0, if readPresent then some r.1 else none, s2)

/-- `LibgpiodSpiBitbang::spi_put(cmd, tx, rx, len)`: builds the `len + 1`
byte buffer `jtx` on the stack with `jtx[0] = cmd` and `jtx[1..]` copied from
`tx` — when `tx` is NULL those bytes stay uninitialized, which we model as
the arbitrary list `junk` (the stack garbage occupying `jtx[1..]`) — issues
one `spi_wr_and_rd` of `len + 1` bytes, copies the sampled bytes after the
first into `rx` when present, and returns the constant 0, discarding the
status of `spi_wr_and_rd`. -/
def spi_put (e : Env) (junk : List Nat) (cmd : Nat) (tx : Option (List Nat))
    (rxPresent : Bool) (len : Nat) (s : SpiState) : Int × Option (List Nat) × SpiState :=
  let jtx := (cmd % 256) :: tx.getD junk
  let r := spi_wr_and_rd e (len + 1) (some jtx) rxPresent s
  (0, if rxPresent then some ((r.2.1.getD []).drop 1) else none, r.2.2)

/-- `LibgpiodSpiBitbang::spi_put(tx, rx, len)`: direct pass-through to
`spi_wr_and_rd`, returning its status. -/
def spi_put_raw (e : Env) (tx : Option (List Nat)) (rxPresent : Bool) (len : Nat)
    (s : SpiState) : Int × Option (List Nat) × SpiState :=
  spi_wr_and_rd e len tx rxPresent s

/-- `LibgpiodSpiBitbang::spi_wr_then_rd`: force MANUAL CS mode, assert CS,
perform a pure-write transfer, then (when it reported success, which it
always does) a pure-read transfer, deassert CS, restore AUTO mode, return
the last status. -/
def spi_wr_then_rd (e : Env) (tx_data : Option (List Nat)) (tx_len : Nat)
    (rxPresent : Bool) (rx_len : Nat) (s : SpiState) : Int × Option (List Nat) × SpiState :=
  let sA : SpiState := { s with cs_mode := CSMode.manual }
  let sB := clearCs e sA
  let r1 := spi_wr_and_rd e tx_len tx_data false sB
  let r2 := if r1.1 ≠ 0 then (r1.1, none, r1.2.2)
            else spi_wr_and_rd e rx_len none rxPresent r1.2.2
  let sE := setCs e r2.2.2
  (r2.1, r2.2.1, { sE with cs_mode := CSMode.auto })

/-- `-ETIME` on Linux, the status `spi_wait` returns on timeout. -/
def negETIME : Int := -62

/-- The do-while poll loop of `spi_wait`: each iteration performs a one-byte
read transfer, increments the 32-bit `count`, breaks when `count` reaches
`timeout` (a `uint32_t` comparison), otherwise repeats while
`(rx & mask) != cond`. `fuel` bounds the recursion; `spi_wait` passes enough
fuel that the loop always breaks before the fuel runs out. Returns the last
sampled byte, the final `count`, and the state. -/
def wait_loop (e : Env) (mask cond timeout : Nat) :
    Nat → Nat → SpiState → Nat × Nat × SpiState
  | 0, count, s => (0, count, s)
  | fuel + 1, count, s =>
    let r := spi_wr_and_rd e 1 none true s
    let rx := (r.2.1.getD []).headD 0
    let count1 := (count + 1) % 4294967296
    if count1 = timeout % 4294967296 then (rx, count1, r.2.2)
    else if rx &&& mask ≠ cond then wait_loop e mask cond timeout fuel count1 r.2.2
    else (rx, count1, r.2.2)

/-- Number of poll iterations after which `wait_loop`'s break condition
`count == timeout` is reached when the condition never holds: `timeout`
iterations, except that a zero `timeout` is only reached again after the
32-bit counter wraps. -/
def wait_fuel (timeout : Nat) : Nat :=
  if timeout % 4294967296 = 0 then 4294967296 else timeout % 4294967296

/-- `LibgpiodSpiBitbang::spi_wait`: force MANUAL CS mode, assert CS, clock
the command byte, poll one byte at a time until `(rx & mask) == cond` or the
attempt counter reaches `timeout`, deassert CS, restore AUTO mode; returns
`-ETIME` when the counter reached `timeout` and 0 otherwise. -/
def spi_wait (e : Env) (cmd mask cond timeout : Nat) (s : SpiState) : Int × SpiState :=
  let sA : SpiState := { s with cs_mode := CSMode.manual }
  let sB := clearCs e sA
  let r0 := spi_wr_and_rd e 1 (some [cmd]) false sB
  let r := wait_loop e mask cond timeout (wait_fuel timeout) 0 r0.2.2
  let sE := setCs e r.2.2
  let sF : SpiState := { sE with cs_mode := CSMode.auto }
  (if r.2.1 = timeout % 4294967296 then negETIME else 0, sF)

/-- Constructor-time configuration errors (`std::runtime_error` throws). -/
inductive ConfigError where
  /-- "Invalid gpio chip": malformed device path. -/
  | invalidChip
  /-- "A pin is outside of valid range". -/
  | pinOutOfRange
  /-- "Two or more pins are assigned to the same pin number". -/
  | duplicatePin
deriving DecidableEq, Repr

/-- `spi_pins_conf_t` as consumed by the constructor. -/
structure spi_pins_conf_t where
  cs_pin : Int
  sck_pin : Int
  mosi_pin : Int
  miso_pin : Int
deriving DecidableEq, Repr

/-- The effective device path: an empty path defaults to `/dev/gpiochip0`. -/
def devPath (dev : String) : String :=
  if dev = "" then "/dev/gpiochip0" else dev

/-- The constructor's device-path check: length at least 14 and the first 13
characters equal to `/dev/gpiochip`. -/
def validDevPath (d : String) : Bool :=
  decide (14 ≤ d.length) && (d.take 13 == "/dev/gpiochip")

/-- The constructor's pin-validation double loop: for each pin in order,
fail with `pinOutOfRange` if it lies outside `[0, 1000)`, then fail with
`duplicatePin` if it equals any later pin; otherwise continue. -/
def validate_pins : List Int → Except ConfigError Unit
  | [] => Except.ok ()
  | p :: rest =>
    if p < 0 ∨ 1000 ≤ p then Except.error ConfigError.pinOutOfRange
    else if rest.contains p then Except.error ConfigError.duplicatePin
    else validate_pins rest

/-- The pins of a configuration in the order the constructor checks them. -/
def pinsOf (pc : spi_pins_conf_t) : List Int :=
  [pc.cs_pin, pc.sck_pin, pc.mosi_pin, pc.miso_pin]

/-- `LibgpiodSpiBitbang::LibgpiodSpiBitbang`: resolve the device path,
validate it, validate the pins, then open the chip, request CS/SCK/MOSI as
outputs (requested values 1, 0, 0) and MISO as input, initialize the cache
to `_curr_cs = 0`, `_curr_sck = 1`, `_curr_mosi = 1`, call
`update_pins(1, 0, 0)`, and set the CS mode to AUTO. Returns the trace of
hardware interactions performed together with the outcome. -/
def construct (e : Env) (pc : spi_pins_conf_t) (dev : String) :
    List Event × Except ConfigError SpiState :=
  let d := devPath dev
  if ¬ validDevPath d then ([], Except.error ConfigError.invalidChip)
  else
    match validate_pins (pinsOf pc) with
    | Except.error err => ([], Except.error err)
    | Except.ok _ =>
      let s0 : SpiState :=
        { curr_cs := 0
          curr_sck := 1
          curr_mosi := 1
          cs_mode := CSMode.auto
          misoIdx := 0
          wrIdx := 0
          trace := [Event.openChip d,
                    Event.reqLine pc.cs_pin 1 true,
                    Event.reqLine pc.sck_pin 0 true,
                    Event.reqLine pc.mosi_pin 0 true,
                    Event.reqLine pc.miso_pin 0 false] }
      let s1 := (update_pins e 1 0 0 s0).2
      let s2 : SpiState := { s1 with cs_mode := CSMode.auto }
      (s2.trace, Except.ok s2)

/-- A loopback harness: MISO always returns the value last driven on MOSI
(the cached `_curr_mosi`); line writes never fail. -/
def loopbackEnv : Env :=
  { miso := fun s => s.curr_mosi == 1
    wfail := fun _ => false }

/-- An environment whose MISO input is the fixed bit sequence `q`, indexed
by the number of MISO reads performed so far; line writes never fail. -/
def seqEnv (q : Nat → Bool) : Env :=
  { miso := fun s => q s.misoIdx
    wfail := fun _ => false }

/-- A trivial environment: MISO constantly low, writes never fail. -/
def envFF : Env :=
  { miso := fun _ => false
    wfail := fun _ => false }

/-- The engine state right after a successful construction, with an empty
trace: CS driven high (deasserted), SCK and MOSI driven low, AUTO CS mode. -/
def initState : SpiState :=
  { curr_cs := 1
    curr_sck := 0
    curr_mosi := 0
    cs_mode := CSMode.auto
    misoIdx := 0
    wrIdx := 0
    trace := [] }

/-- The numeric value of a sampled bit. -/
def bitv (b : Bool) : Nat := if b then 1 else 0

/-- The byte assembled MSB-first from eight consecutive values of the MISO
bit sequence `q`, starting at read index `i`. -/
def misoByte (q : Nat → Bool) (i : Nat) : Nat :=
  128 * bitv (q i) + 64 * bitv (q (i + 1)) + 32 * bitv (q (i + 2)) +
  16 * bitv (q (i + 3)) + 8 * bitv (q (i + 4)) + 4 * bitv (q (i + 5)) +
  2 * bitv (q (i + 6)) + bitv (q (i + 7))

/-- The value written by an event, if it is a write to line `l`. -/
def evWriteVal (l : Line) : Event → Option Int
  | Event.write l' v _ => if l' = l then some v else none
  | _ => none

/-- The sequence of values written to line `l` in a trace. -/
def lineWriteVals (l : Line) (evs : List Event) : List Int :=
  evs.filterMap (evWriteVal l)

/-! ## Helper lemmas: traces and single pin updates -/

@[simp] theorem lineWriteVals_nil (l : Line) : lineWriteVals l [] = [] := rfl

@[simp] theorem lineWriteVals_append (l : Line) (a b : List Event) :
    lineWriteVals l (a ++ b) = lineWriteVals l a ++ lineWriteVals l b :=
  List.filterMap_append a b (evWriteVal l)

@[simp] theorem lineWriteVals_read (l : Line) (v : Bool) :
    lineWriteVals l [Event.readMiso v] = [] := rfl

@[simp] theorem lineWriteVals_cons_read (l : Line) (v : Bool) (evs : List Event) :
    lineWriteVals l (Event.readMiso v :: evs) = lineWriteVals l evs := rfl

@[simp] theorem lineWriteVals_cons_openChip (l : Line) (d : String) (evs : List Event) :
    lineWriteVals l (Event.openChip d :: evs) = lineWriteVals l evs := rfl

@[simp] theorem lineWriteVals_cons_reqLine (l : Line) (p v : Int) (o : Bool)
    (evs : List Event) :
    lineWriteVals l (Event.reqLine p v o :: evs) = lineWriteVals l evs := rfl

@[simp] theorem dAll_vals_mosi (e : Env) (cs sck mosi : Int) (s : SpiState) :
    lineWriteVals Line.mosi (dAll e cs sck mosi s) =
      if mosi = s.curr_mosi then [] else [mosi] := by
  unfold dAll dMosi dSck dCs lineWriteVals evWriteVal
  split <;> split <;> split <;> simp_all

@[simp] theorem dAll_vals_sck (e : Env) (cs sck mosi : Int) (s : SpiState) :
    lineWriteVals Line.sck (dAll e cs sck mosi s) =
      if sck = s.curr_sck then [] else [sck] := by
  unfold dAll dMosi dSck dCs lineWriteVals evWriteVal
  split <;> split <;> split <;> simp_all

@[simp] theorem dAll_vals_cs (e : Env) (cs sck mosi : Int) (s : SpiState) :
    lineWriteVals Line.cs (dAll e cs sck mosi s) =
      if cs = s.curr_cs then [] else [cs] := by
  unfold dAll dMosi dSck dCs lineWriteVals evWriteVal
  split <;> split <;> split <;> simp_all

theorem dAll_length (e : Env) (cs sck mosi : Int) (s : SpiState) :
    (dAll e cs sck mosi s).length =
      (if mosi = s.curr_mosi then 0 else 1) + (if sck = s.curr_sck then 0 else 1) +
        (if cs = s.curr_cs then 0 else 1) := by
  unfold dAll dMosi dSck dCs
  split <;> split <;> split <;> simp

@[simp] theorem up_fst (e : Env) (cs sck mosi : Int) (s : SpiState) :
    (update_pins e cs sck mosi s).1 = 0 := rfl

@[simp] theorem up_curr_cs (e : Env) (cs sck mosi : Int) (s : SpiState) :
    (update_pins e cs sck mosi s).2.curr_cs = cs := rfl

@[simp] theorem up_curr_sck (e : Env) (cs sck mosi : Int) (s : SpiState) :
    (update_pins e cs sck mosi s).2.curr_sck = sck := rfl

@[simp] theorem up_curr_mosi (e : Env) (cs sck mosi : Int) (s : SpiState) :
    (update_pins e cs sck mosi s).2.curr_mosi = mosi := rfl

@[simp] theorem up_cs_mode (e : Env) (cs sck mosi : Int) (s : SpiState) :
    (update_pins e cs sck mosi s).2.cs_mode = s.cs_mode := rfl

@[simp] theorem up_misoIdx (e : Env) (cs sck mosi : Int) (s : SpiState) :
    (update_pins e cs sck mosi s).2.misoIdx = s.misoIdx := rfl

theorem up_trace (e : Env) (cs sck mosi : Int) (s : SpiState) :
    (update_pins e cs sck mosi s).2.trace = s.trace ++ dAll e cs sck mosi s := rfl

@[simp] theorem read_fst (e : Env) (s : SpiState) : (read_miso e s).1 = e.miso s := rfl

@[simp] theorem read_curr_cs (e : Env) (s : SpiState) :
    (read_miso e s).2.curr_cs = s.curr_cs := rfl

@[simp] theorem read_curr_sck (e : Env) (s : SpiState) :
    (read_miso e s).2.curr_sck = s.curr_sck := rfl

@[simp] theorem read_curr_mosi (e : Env) (s : SpiState) :
    (read_miso e s).2.curr_mosi = s.curr_mosi := rfl

@[simp] theorem read_cs_mode (e : Env) (s : SpiState) :
    (read_miso e s).2.cs_mode = s.cs_mode := rfl

@[simp] theorem read_misoIdx (e : Env) (s : SpiState) :
    (read_miso e s).2.misoIdx = s.misoIdx + 1 := rfl

theorem read_trace (e : Env) (s : SpiState) :
    (read_miso e s).2.trace = s.trace ++ [Event.readMiso (e.miso s)] := rfl

/-! ## Helper lemmas: the bit loop -/

@[simp] theorem spi_bit_fst (e : Env) (wv rv : Nat) (s : SpiState) :
    (spi_bit e wv rv s).1 = wv * 2 % 256 := rfl

@[simp] theorem spi_bit_curr_cs (e : Env) (wv rv : Nat) (s : SpiState) :
    (spi_bit e wv rv s).2.2.curr_cs = s.curr_cs := rfl

@[simp] theorem spi_bit_curr_sck (e : Env) (wv rv : Nat) (s : SpiState) :
    (spi_bit e wv rv s).2.2.curr_sck = 0 := rfl

@[simp] theorem spi_bit_cs_mode (e : Env) (wv rv : Nat) (s : SpiState) :
    (spi_bit e wv rv s).2.2.cs_mode = s.cs_mode := rfl

@[simp] theorem spi_bit_misoIdx (e : Env) (wv rv : Nat) (s : SpiState) :
    (spi_bit e wv rv s).2.2.misoIdx = s.misoIdx + 1 := rfl

@[simp] theorem spi_bit_csVals (e : Env) (wv rv : Nat) (s : SpiState) :
    lineWriteVals Line.cs (spi_bit e wv rv s).2.2.trace =
      lineWriteVals Line.cs s.trace := by
  unfold spi_bit
  simp [up_trace, read_trace]

/-- The sampled-bit accumulator of the bit loop under the loopback harness:
with MISO wired to MOSI, each iteration shifts in the MSB just driven. -/
def lb8 : Nat → Nat → Nat → Nat
  | 0, _, rv => rv
  | n + 1, wv, rv => lb8 n (wv * 2 % 256) ((rv * 2 + if wv &&& 128 ≠ 0 then 1 else 0) % 256)

set_option maxRecDepth 4000 in
theorem lb8_eight (v : Nat) (hv : v < 256) : lb8 8 v 0 = v := by
  revert hv
  revert v
  decide

theorem spi_bit_rv_lb (wv rv : Nat) (s : SpiState) :
    (spi_bit loopbackEnv wv rv s).2.1 =
      (rv * 2 + if wv &&& 128 ≠ 0 then 1 else 0) % 256 := by
  unfold spi_bit read_miso loopbackEnv
  by_cases h : wv &&& 128 ≠ 0 <;> simp [h, update_pins]

/-- The sampled-bit accumulator of the bit loop under a fixed MISO bit
sequence `q`, starting at read index `i`. -/
def sAcc (q : Nat → Bool) : Nat → Nat → Nat → Nat
  | 0, rv, _ => rv
  | n + 1, rv, i => sAcc q n ((rv * 2 + bitv (q i)) % 256) (i + 1)

theorem bitv_le (b : Bool) : bitv b ≤ 1 := by unfold bitv; split <;> simp

theorem sAcc_eight (q : Nat → Bool) (i : Nat) : sAcc q 8 0 i = misoByte q i := by
  have h0 := bitv_le (q i)
  have h1 := bitv_le (q (i + 1))
  have h2 := bitv_le (q (i + 2))
  have h3 := bitv_le (q (i + 3))
  have h4 := bitv_le (q (i + 4))
  have h5 := bitv_le (q (i + 5))
  have h6 := bitv_le (q (i + 6))
  have h7 := bitv_le (q (i + 7))
  simp only [sAcc, misoByte, show i + 1 + 1 = i + 2 by omega,
    show i + 2 + 1 = i + 3 by omega, show i + 3 + 1 = i + 4 by omega,
    show i + 4 + 1 = i + 5 by omega, show i + 5 + 1 = i + 6 by omega,
    show i + 6 + 1 = i + 7 by omega]
  omega

theorem spi_bit_rv_seq (q : Nat → Bool) (wv rv : Nat) (s : SpiState) :
    (spi_bit (seqEnv q) wv rv s).2.1 = (rv * 2 + bitv (q s.misoIdx)) % 256 := by
  unfold spi_bit read_miso seqEnv bitv
  simp [update_pins]

theorem spi_bits_curr_cs (e : Env) (n : Nat) : ∀ (wv rv : Nat) (s : SpiState),
    (spi_bits e n wv rv s).2.curr_cs = s.curr_cs := by
  induction n with
  | zero => intro wv rv s; rfl
  | succ n ih => intro wv rv s; simp [spi_bits, ih]

theorem spi_bits_cs_mode (e : Env) (n : Nat) : ∀ (wv rv : Nat) (s : SpiState),
    (spi_bits e n wv rv s).2.cs_mode = s.cs_mode := by
  induction n with
  | zero => intro wv rv s; rfl
  | succ n ih => intro wv rv s; simp [spi_bits, ih]

theorem spi_bits_misoIdx (e : Env) (n : Nat) : ∀ (wv rv : Nat) (s : SpiState),
    (spi_bits e n wv rv s).2.misoIdx = s.misoIdx + n := by
  induction n with
  | zero => intro wv rv s; rfl
  | succ n ih => intro wv rv s; simp [spi_bits, ih]; omega

theorem spi_bits_csVals (e : Env) (n : Nat) : ∀ (wv rv : Nat) (s : SpiState),
    lineWriteVals Line.cs (spi_bits e n wv rv s).2.trace =
      lineWriteVals Line.cs s.trace := by
  induction n with
  | zero => intro wv rv s; rfl
  | succ n ih => intro wv rv s; simp [spi_bits, ih]

theorem spi_bits_rv_lb (n : Nat) : ∀ (wv rv : Nat) (s : SpiState),
    (spi_bits loopbackEnv n wv rv s).1 = lb8 n wv rv := by
  induction n with
  | zero => intro wv rv s; rfl
  | succ n ih => intro wv rv s; simp [spi_bits, lb8, ih, spi_bit_rv_lb]

theorem spi_bits_rv_seq (q : Nat → Bool) (n : Nat) : ∀ (wv rv : Nat) (s : SpiState),
    (spi_bits (seqEnv q) n wv rv s).1 = sAcc q n rv s.misoIdx := by
  induction n with
  | zero => intro wv rv s; rfl
  | succ n ih => intro wv rv s; simp [spi_bits, sAcc, ih, spi_bit_rv_seq]

theorem spi_byte_rv_lb (w : Nat) (s : SpiState) :
    (spi_byte loopbackEnv w s).1 = w % 256 := by
  rw [spi_byte, spi_bits_rv_lb]
  exact lb8_eight _ (Nat.mod_lt _ (by omega))

theorem spi_byte_rv_seq (q : Nat → Bool) (w : Nat) (s : SpiState) :
    (spi_byte (seqEnv q) w s).1 = misoByte q s.misoIdx := by
  rw [spi_byte, spi_bits_rv_seq, sAcc_eight]

theorem spi_byte_curr_cs (e : Env) (w : Nat) (s : SpiState) :
    (spi_byte e w s).2.curr_cs = s.curr_cs := spi_bits_curr_cs e 8 _ 0 s

theorem spi_byte_cs_mode (e : Env) (w : Nat) (s : SpiState) :
    (spi_byte e w s).2.cs_mode = s.cs_mode := spi_bits_cs_mode e 8 _ 0 s

theorem spi_byte_misoIdx (e : Env) (w : Nat) (s : SpiState) :
    (spi_byte e w s).2.misoIdx = s.misoIdx + 8 := spi_bits_misoIdx e 8 _ 0 s

theorem spi_byte_csVals (e : Env) (w : Nat) (s : SpiState) :
    lineWriteVals Line.cs (spi_byte e w s).2.trace =
      lineWriteVals Line.cs s.trace := spi_bits_csVals e 8 _ 0 s

/-! ## Helper lemmas: the byte loop -/

theorem spi_bytes_curr_cs (e : Env) (n : Nat) : ∀ (wp : Option (List Nat)) (s : SpiState),
    (spi_bytes e n wp s).2.curr_cs = s.curr_cs := by
  induction n with
  | zero => intro wp s; rfl
  | succ n ih => intro wp s; simp [spi_bytes, ih, spi_byte_curr_cs]

theorem spi_bytes_cs_mode (e : Env) (n : Nat) : ∀ (wp : Option (List Nat)) (s : SpiState),
    (spi_bytes e n wp s).2.cs_mode = s.cs_mode := by
  induction n with
  | zero => intro wp s; rfl
  | succ n ih => intro wp s; simp [spi_bytes, ih, spi_byte_cs_mode]

theorem spi_bytes_misoIdx (e : Env) (n : Nat) : ∀ (wp : Option (List Nat)) (s : SpiState),
    (spi_bytes e n wp s).2.misoIdx = s.misoIdx + 8 * n := by
  induction n with
  | zero => intro wp s; simp [spi_bytes]
  | succ n ih => intro wp s; simp [spi_bytes, ih, spi_byte_misoIdx]; omega

theorem spi_bytes_csVals (e : Env) (n : Nat) : ∀ (wp : Option (List Nat)) (s : SpiState),
    lineWriteVals Line.cs (spi_bytes e n wp s).2.trace =
      lineWriteVals Line.cs s.trace := by
  induction n with
  | zero => intro wp s; rfl
  | succ n ih => intro wp s; simp [spi_bytes, ih, spi_byte_csVals]

theorem spi_bytes_rv_lb (l : List Nat) : ∀ (s : SpiState), (∀ b ∈ l, b < 256) →
    (spi_bytes loopbackEnv l.length (some l) s).1 = l := by
  induction l with
  | nil => intro s _; rfl
  | cons a t ih =>
    intro s hb
    simp only [List.length_cons, spi_bytes, List.headD,
      show Option.map List.tail (some (a :: t)) = some t from rfl]
    rw [spi_byte_rv_lb, ih _ (fun b hbt => hb b (List.mem_cons_of_mem a hbt)),
      Nat.mod_eq_of_lt (hb a (List.mem_cons_self a t))]

theorem spi_bytes_rv_seq_one (q : Nat → Bool) (wp : Option (List Nat)) (s : SpiState) :
    (spi_bytes (seqEnv q) 1 wp s).1 = [misoByte q s.misoIdx] := by
  simp [spi_bytes, spi_byte_rv_seq]

/-! ## Helper lemmas: chip-select helpers and `spi_wr_and_rd` -/

theorem clearCs_curr_cs (e : Env) (s : SpiState) : (clearCs e s).curr_cs = 0 := rfl

theorem clearCs_curr_sck (e : Env) (s : SpiState) : (clearCs e s).curr_sck = s.curr_sck := rfl

theorem clearCs_curr_mosi (e : Env) (s : SpiState) : (clearCs e s).curr_mosi = s.curr_mosi := rfl

theorem clearCs_cs_mode (e : Env) (s : SpiState) : (clearCs e s).cs_mode = s.cs_mode := rfl

theorem clearCs_misoIdx (e : Env) (s : SpiState) : (clearCs e s).misoIdx = s.misoIdx := rfl

theorem setCs_curr_cs (e : Env) (s : SpiState) : (setCs e s).curr_cs = 1 := rfl

theorem setCs_curr_sck (e : Env) (s : SpiState) : (setCs e s).curr_sck = s.curr_sck := rfl

theorem setCs_curr_mosi (e : Env) (s : SpiState) : (setCs e s).curr_mosi = s.curr_mosi := rfl

theorem setCs_cs_mode (e : Env) (s : SpiState) : (setCs e s).cs_mode = s.cs_mode := rfl

theorem setCs_misoIdx (e : Env) (s : SpiState) : (setCs e s).misoIdx = s.misoIdx := rfl

theorem clearCs_csVals (e : Env) (s : SpiState) :
    lineWriteVals Line.cs (clearCs e s).trace =
      lineWriteVals Line.cs s.trace ++ (if (0 : Int) = s.curr_cs then [] else [0]) := by
  unfold clearCs
  rw [up_trace]
  simp

theorem setCs_csVals (e : Env) (s : SpiState) :
    lineWriteVals Line.cs (setCs e s).trace =
      lineWriteVals Line.cs s.trace ++ (if (1 : Int) = s.curr_cs then [] else [1]) := by
  unfold setCs
  rw [up_trace]
  simp

theorem wrrd_fst (e : Env) (cnt : Nat) (wp : Option (List Nat)) (rp : Bool) (s : SpiState) :
    (spi_wr_and_rd e cnt wp rp s).1 = 0 := rfl

theorem wrrd_cs_mode (e : Env) (cnt : Nat) (wp : Option (List Nat)) (rp : Bool) (s : SpiState) :
    (spi_wr_and_rd e cnt wp rp s).2.2.cs_mode = s.cs_mode := by
  unfold spi_wr_and_rd
  by_cases h : s.cs_mode = CSMode.auto <;>
    simp [h, spi_bytes_cs_mode, clearCs_cs_mode, setCs_cs_mode]

theorem wrrd_misoIdx (e : Env) (cnt : Nat) (wp : Option (List Nat)) (rp : Bool) (s : SpiState) :
    (spi_wr_and_rd e cnt wp rp s).2.2.misoIdx = s.misoIdx + 8 * cnt := by
  unfold spi_wr_and_rd
  by_cases h : s.cs_mode = CSMode.auto <;>
    simp [h, spi_bytes_cs_mode, clearCs_cs_mode, spi_bytes_misoIdx, clearCs_misoIdx,
      setCs_misoIdx]

theorem wrrd_curr_cs_auto (e : Env) (cnt : Nat) (wp : Option (List Nat)) (rp : Bool)
    (s : SpiState) (h : s.cs_mode = CSMode.auto) :
    (spi_wr_and_rd e cnt wp rp s).2.2.curr_cs = 1 := by
  unfold spi_wr_and_rd
  simp [h, spi_bytes_cs_mode, clearCs_cs_mode, setCs_curr_cs]

theorem wrrd_manual_curr_cs (e : Env) (cnt : Nat) (wp : Option (List Nat)) (rp : Bool)
    (s : SpiState) (h : s.cs_mode = CSMode.manual) :
    (spi_wr_and_rd e cnt wp rp s).2.2.curr_cs = s.curr_cs := by
  unfold spi_wr_and_rd
  simp [h, spi_bytes_cs_mode, spi_bytes_curr_cs]

theorem wrrd_manual_csVals (e : Env) (cnt : Nat) (wp : Option (List Nat)) (rp : Bool)
    (s : SpiState) (h : s.cs_mode = CSMode.manual) :
    lineWriteVals Line.cs (spi_wr_and_rd e cnt wp rp s).2.2.trace =
      lineWriteVals Line.cs s.trace := by
  unfold spi_wr_and_rd
  simp [h, spi_bytes_cs_mode, spi_bytes_csVals]

theorem wrrd_read_lb (l : List Nat) (s : SpiState) (hb : ∀ b ∈ l, b < 256) :
    (spi_wr_and_rd loopbackEnv l.length (some l) true s).2.1 = some l := by
  unfold spi_wr_and_rd
  by_cases h : s.cs_mode = CSMode.auto <;> simp [h, spi_bytes_rv_lb _ _ hb]

theorem wrrd_read_seq_one (q : Nat → Bool) (wp : Option (List Nat)) (s : SpiState) :
    (spi_wr_and_rd (seqEnv q) 1 wp true s).2.1 = some [misoByte q s.misoIdx] := by
  unfold spi_wr_and_rd
  by_cases h : s.cs_mode = CSMode.auto <;>
    simp [h, spi_bytes_rv_seq_one, clearCs_misoIdx]

/-! ## Helper lemmas: constructor validation -/

theorem contains_eq_false_of_not_mem {l : List Int} {p : Int} (h : p ∉ l) :
    l.contains p = false := by
  simp [List.contains, List.elem_iff, h]

theorem mem_of_contains_eq_true {l : List Int} {p : Int} (h : l.contains p = true) :
    p ∈ l := by
  simpa [List.contains, List.elem_iff] using h

theorem validate_pins_ok_iff (l : List Int) :
    validate_pins l = Except.ok () ↔
      (∀ p ∈ l, 0 ≤ p ∧ p < 1000) ∧ l.Pairwise (· ≠ ·) := by
  induction l with
  | nil => simp [validate_pins]
  | cons p rest ih =>
    rw [validate_pins]
    by_cases h1 : p < 0 ∨ 1000 ≤ p
    · rw [if_pos h1]
      simp only [List.forall_mem_cons, List.pairwise_cons]
      constructor
      · intro h; exact absurd h (by simp)
      · intro h; exact absurd h1 (by push_neg; omega)
    · rw [if_neg h1]
      by_cases h2 : rest.contains p
      · rw [if_pos h2]
        simp only [List.forall_mem_cons, List.pairwise_cons]
        constructor
        · intro h; exact absurd h (by simp)
        · rintro ⟨-, hpw, -⟩
          exact absurd rfl (hpw p (mem_of_contains_eq_true h2))
      · rw [if_neg h2, ih]
        simp only [List.forall_mem_cons, List.pairwise_cons]
        constructor
        · rintro ⟨hr, hpw⟩
          refine ⟨⟨by omega, hr⟩, fun a ha hpa => ?_, hpw⟩
          subst hpa
          exact h2 (by simpa [List.contains, List.elem_iff] using ha)
        · rintro ⟨⟨-, hr⟩, -, hpw⟩
          exact ⟨hr, hpw⟩

theorem validate_pins_err_cases (l : List Int) :
    ∀ er, validate_pins l = Except.error er →
      er = ConfigError.pinOutOfRange ∨ er = ConfigError.duplicatePin := by
  induction l with
  | nil => intro er h; exact absurd h (by simp [validate_pins])
  | cons p rest ih =>
    intro er h
    rw [validate_pins] at h
    by_cases h1 : p < 0 ∨ 1000 ≤ p
    · rw [if_pos h1] at h
      exact Or.inl (Except.error.inj h).symm
    · rw [if_neg h1] at h
      by_cases h2 : rest.contains p
      · rw [if_pos h2] at h
        exact Or.inr (Except.error.inj h).symm
      · rw [if_neg h2] at h
        exact ih er h

theorem validate_pins_fail (l : List Int)
    (h : ¬ ((∀ p ∈ l, 0 ≤ p ∧ p < 1000) ∧ l.Pairwise (· ≠ ·))) :
    ∃ er, validate_pins l = Except.error er := by
  rcases hv : validate_pins l with er | u
  · exact ⟨er, rfl⟩
  · cases u
    exact absurd ((validate_pins_ok_iff l).mp hv) h

theorem validate_pins_not_oor (l : List Int) (h : ∀ p ∈ l, 0 ≤ p ∧ p < 1000) :
    validate_pins l ≠ Except.error ConfigError.pinOutOfRange := by
  induction l with
  | nil => simp [validate_pins]
  | cons p rest ih =>
    rw [validate_pins]
    have hp := h p (List.mem_cons_self p rest)
    rw [if_neg (by omega)]
    by_cases h2 : rest.contains p
    · rw [if_pos h2]; simp
    · rw [if_neg h2]
      exact ih (fun a ha => h a (List.mem_cons_of_mem p ha))

theorem validate_pins_not_dup (l : List Int) (h : l.Pairwise (· ≠ ·)) :
    validate_pins l ≠ Except.error ConfigError.duplicatePin := by
  induction l with
  | nil => simp [validate_pins]
  | cons p rest ih =>
    rw [validate_pins]
    rcases List.pairwise_cons.mp h with ⟨hpw, htail⟩
    by_cases h1 : p < 0 ∨ 1000 ≤ p
    · rw [if_pos h1]; simp
    · rw [if_neg h1]
      rw [if_neg (fun hc => absurd rfl (hpw p (mem_of_contains_eq_true hc)))]
      exact ih htail

/-! ## Helper lemmas: the poll loop of `spi_wait` -/

theorem wait_loop_noSat (q : Nat → Bool) (mask cond timeout : Nat)
    (hlt : timeout < 4294967296) :
    ∀ (fuel count : Nat) (s : SpiState), fuel + count = timeout → 1 ≤ fuel →
      (∀ k, k < fuel - 1 → misoByte q (s.misoIdx + 8 * k) &&& mask ≠ cond) →
      (wait_loop (seqEnv q) mask cond timeout fuel count s).2.1 = timeout ∧
        (wait_loop (seqEnv q) mask cond timeout fuel count s).2.2.misoIdx =
          s.misoIdx + 8 * fuel := by
  intro fuel
  induction fuel with
  | zero => intro count s hsum h1; exact absurd h1 (by omega)
  | succ f ih =>
    intro count s hsum h1 hns
    simp only [wait_loop]
    rw [wrrd_read_seq_one]
    simp only [Option.getD_some, List.headD_cons]
    rw [Nat.mod_eq_of_lt (by omega : count + 1 < 4294967296), Nat.mod_eq_of_lt hlt]
    by_cases hb : count + 1 = timeout
    · rw [if_pos hb]
      refine ⟨hb, ?_⟩
      rw [wrrd_misoIdx]
      omega
    · rw [if_neg hb]
      have hf : 1 ≤ f := by omega
      have h0 : misoByte q s.misoIdx &&& mask ≠ cond := by
        have h := hns 0 (by omega)
        simpa using h
      rw [if_pos h0]
      have hmi : (spi_wr_and_rd (seqEnv q) 1 none true s).2.2.misoIdx = s.misoIdx + 8 := by
        rw [wrrd_misoIdx]
      have hns' : ∀ k, k < f - 1 →
          misoByte q ((spi_wr_and_rd (seqEnv q) 1 none true s).2.2.misoIdx + 8 * k)
            &&& mask ≠ cond := by
        intro k hk
        rw [hmi, show s.misoIdx + 8 + 8 * k = s.misoIdx + 8 * (k + 1) by omega]
        exact hns (k + 1) (by omega)
      rcases ih (count + 1) _ (by omega) hf hns' with ⟨hc, hm⟩
      exact ⟨hc, by rw [hm, hmi]; omega⟩

theorem wait_loop_sat (q : Nat → Bool) (mask cond timeout : Nat)
    (hlt : timeout < 4294967296) :
    ∀ (fuel count : Nat) (s : SpiState), fuel + count = timeout →
      (∃ k, k < fuel - 1 ∧ misoByte q (s.misoIdx + 8 * k) &&& mask = cond) →
      (wait_loop (seqEnv q) mask cond timeout fuel count s).2.1 < timeout := by
  intro fuel
  induction fuel with
  | zero =>
    rintro count s hsum ⟨k, hk, -⟩
    exact absurd hk (by omega)
  | succ f ih =>
    rintro count s hsum ⟨k, hk, hsat⟩
    have hf : 1 ≤ f := by omega
    have hb : count + 1 ≠ timeout := by omega
    simp only [wait_loop]
    rw [wrrd_read_seq_one]
    simp only [Option.getD_some, List.headD_cons]
    rw [Nat.mod_eq_of_lt (by omega : count + 1 < 4294967296), Nat.mod_eq_of_lt hlt]
    rw [if_neg hb]
    by_cases hs0 : misoByte q s.misoIdx &&& mask ≠ cond
    · rw [if_pos hs0]
      have hk1 : 1 ≤ k := by
        rcases Nat.eq_zero_or_pos k with h | h
        · subst h
          exact absurd (show misoByte q s.misoIdx &&& mask = cond by simpa using hsat) hs0
        · exact h
      apply ih (count + 1) _ (by omega)
      refine ⟨k - 1, by omega, ?_⟩
      rw [wrrd_misoIdx, show s.misoIdx + 8 * 1 + 8 * (k - 1) = s.misoIdx + 8 * k by omega]
      exact hsat
    · rw [if_neg hs0]
      show count + 1 < timeout
      omega

/-- Like `wrrd_read_lb`, with the byte count given by a hypothesis. -/
theorem wrrd_read_lb_cnt (cnt : Nat) (l : List Nat) (s : SpiState)
    (hc : l.length = cnt) (hb : ∀ b ∈ l, b < 256) :
    (spi_wr_and_rd loopbackEnv cnt (some l) true s).2.1 = some l := by
  subst hc
  exact wrrd_read_lb l s hb

/-! ## Claim theorems -/

/-- C1: for every byte count `N ∈ {0, 1, 8, 255}` and every write buffer of
`N` bytes, if the MISO input always returns the value last driven on MOSI
(loopback), then `spi_wr_and_rd N write read` fills the read buffer with
bytes identical to the write bytes. -/
theorem spi_loopback_roundtrip (n : Nat)
    (_hn : n = 0 ∨ n = 1 ∨ n = 8 ∨ n = 255) (l : List Nat) (s : SpiState)
    (hlen : l.length = n) (hb : ∀ b ∈ l, b < 256) :
    (spi_wr_and_rd loopbackEnv n (some l) true s).2.1 = some l :=
  wrrd_read_lb_cnt n l s hlen hb

/-- Witness for C1 at `N = 8` and a concrete 8-byte write buffer. -/
theorem spi_loopback_roundtrip_witness :
    ((8 : Nat) = 0 ∨ (8 : Nat) = 1 ∨ (8 : Nat) = 8 ∨ (8 : Nat) = 255) ∧
      (spi_wr_and_rd loopbackEnv 8 (some [0, 1, 127, 128, 170, 85, 255, 66]) true
          initState).2.1 = some [0, 1, 127, 128, 170, 85, 255, 66] :=
  ⟨Or.inr (Or.inr (Or.inl rfl)),
   spi_loopback_roundtrip 8 (Or.inr (Or.inr (Or.inl rfl)))
     [0, 1, 127, 128, 170, 85, 255, 66] initState rfl (by decide)⟩

/-- C6: `update_pins` issues a hardware write for a line iff the requested
value differs from the cached value for that line, sets the cached values of
all three lines to the requested values unconditionally (for any
write-failure oracle `e.wfail`), and returns 0 in every case; the trace grows
by exactly the issued writes. -/
theorem update_pins_conditional_writes (e : Env) (cs sck mosi : Int) (s : SpiState) :
    (update_pins e cs sck mosi s).1 = 0 ∧
      (update_pins e cs sck mosi s).2.curr_cs = cs ∧
      (update_pins e cs sck mosi s).2.curr_sck = sck ∧
      (update_pins e cs sck mosi s).2.curr_mosi = mosi ∧
      lineWriteVals Line.mosi (update_pins e cs sck mosi s).2.trace =
        lineWriteVals Line.mosi s.trace ++ (if mosi = s.curr_mosi then [] else [mosi]) ∧
      lineWriteVals Line.sck (update_pins e cs sck mosi s).2.trace =
        lineWriteVals Line.sck s.trace ++ (if sck = s.curr_sck then [] else [sck]) ∧
      lineWriteVals Line.cs (update_pins e cs sck mosi s).2.trace =
        lineWriteVals Line.cs s.trace ++ (if cs = s.curr_cs then [] else [cs]) ∧
      (update_pins e cs sck mosi s).2.trace.length =
        s.trace.length + ((if mosi = s.curr_mosi then 0 else 1) +
          (if sck = s.curr_sck then 0 else 1) + (if cs = s.curr_cs then 0 else 1)) := by
  refine ⟨rfl, rfl, rfl, rfl, ?_, ?_, ?_, ?_⟩
  · rw [up_trace]; simp
  · rw [up_trace]; simp
  · rw [up_trace]; simp
  · rw [up_trace]
    simp [dAll_length]

/-- C9: both `spi_put` overloads return 0 on every (error-free) input: the
command-prefixed overload returns the constant 0 discarding the status of the
underlying `spi_wr_and_rd` entirely, and the raw overload passes through the
status of `spi_wr_and_rd`, which is the constant 0. -/
theorem spi_put_status_zero :
    (∀ (e : Env) (junk : List Nat) (cmd : Nat) (tx : Option (List Nat)) (rxp : Bool)
        (len : Nat) (s : SpiState), (spi_put e junk cmd tx rxp len s).1 = 0) ∧
      (∀ (e : Env) (tx : Option (List Nat)) (rxp : Bool) (len : Nat) (s : SpiState),
        (spi_put_raw e tx rxp len s).1 = 0) :=
  ⟨fun _ _ _ _ _ _ _ => rfl, fun _ _ _ _ _ => rfl⟩

/-- C3 counterexample: `spi_put(cmd = 0xAB, tx = NULL, rx present, len = 1)`
clocks the uninitialized stack byte occupying the transfer buffer (here
`0x37`) in slot 1 rather than zero: under the loopback harness, where the
sampled byte equals the clocked byte, the response byte delivered to `rx` is
`0x37 ≠ 0`. -/
theorem spi_put_uninit_tx_cex :
    (spi_put loopbackEnv [55] 171 none true 1 initState).2.1 = some [55] ∧
      (55 : Nat) ≠ 0 :=
  ⟨rfl, by decide⟩

/-- C3 (amended): `spi_put cmd tx rx len` clocks exactly `len + 1` bytes
(8 MISO samples per byte) in a single CS-asserted window — CS is written
exactly once to 0 before and once to 1 after — with byte 0 equal to `cmd`
and bytes `1..len` equal to the payload when `tx` is present and to the
pre-existing, indeterminate contents of the uninitialized transfer buffer
(modelled by `junk`) when `tx` is absent — not zero; when `rx` is present it
receives the `len` sampled bytes that skip the first (command-slot) response
byte, shown here under the loopback harness where sampled bytes equal
clocked bytes. -/
theorem spi_put_cmd_transaction (junk : List Nat) (cmd : Nat)
    (tx : Option (List Nat)) (len : Nat) (s : SpiState)
    (hlen : (tx.getD junk).length = len) (hb : ∀ b ∈ tx.getD junk, b < 256)
    (hcmd : cmd < 256) (hmode : s.cs_mode = CSMode.auto) (hcs : s.curr_cs = 1) :
    (spi_put loopbackEnv junk cmd tx true len s).2.1 = some (tx.getD junk) ∧
      (spi_put loopbackEnv junk cmd tx true len s).2.2.misoIdx =
        s.misoIdx + 8 * (len + 1) ∧
      lineWriteVals Line.cs (spi_put loopbackEnv junk cmd tx true len s).2.2.trace =
        lineWriteVals Line.cs s.trace ++ [0, 1] := by
  have hjl : ((cmd % 256) :: tx.getD junk).length = len + 1 := by
    simp [hlen]
  have hjb : ∀ b ∈ (cmd % 256) :: tx.getD junk, b < 256 := by
    intro b hbm
    rcases List.mem_cons.mp hbm with h | h
    · subst h; exact Nat.mod_lt _ (by omega)
    · exact hb b h
  simp only [spi_put]
  rw [wrrd_read_lb_cnt (len + 1) _ s hjl hjb]
  refine ⟨?_, ?_, ?_⟩
  · simp [Nat.mod_eq_of_lt hcmd]
  · rw [wrrd_misoIdx]
  · have hby : (spi_bytes loopbackEnv (len + 1) (some ((cmd % 256) :: tx.getD junk))
        (clearCs loopbackEnv s)).2.cs_mode = CSMode.auto := by
      rw [spi_bytes_cs_mode, clearCs_cs_mode, hmode]
    have hbycs : (spi_bytes loopbackEnv (len + 1) (some ((cmd % 256) :: tx.getD junk))
        (clearCs loopbackEnv s)).2.curr_cs = 0 := by
      rw [spi_bytes_curr_cs, clearCs_curr_cs]
    simp only [spi_wr_and_rd]
    rw [if_pos hmode, if_pos hby, setCs_csVals, spi_bytes_csVals, clearCs_csVals,
      hbycs, hcs]
    simp

/-- Witness for C3 (amended) at `cmd = 0xAB`, `tx = [1, 2]`, `len = 2`. -/
theorem spi_put_cmd_transaction_witness :
    (spi_put loopbackEnv [] 171 (some [1, 2]) true 2 initState).2.1 = some [1, 2] ∧
      (spi_put loopbackEnv [] 171 (some [1, 2]) true 2 initState).2.2.misoIdx = 24 ∧
      lineWriteVals Line.cs
          (spi_put loopbackEnv [] 171 (some [1, 2]) true 2 initState).2.2.trace =
        [0, 1] :=
  spi_put_cmd_transaction [] 171 (some [1, 2]) 2 initState rfl (by decide) (by decide)
    rfl rfl

/-- C4 counterexample: constructing with pins `{cs = 0, sck = 1, mosi = 2,
miso = 3}` on `/dev/gpiochip0` leaves the cached SCK and MOSI drive values at
0, not 1 as the claim states. -/
theorem construct_idle_drive_cex :
    ((construct envFF ⟨0, 1, 2, 3⟩ "/dev/gpiochip0").2.map
        (fun st => (st.curr_sck, st.curr_mosi))) = Except.ok ((0 : Int), (0 : Int)) ∧
      ¬ (((0 : Int), (0 : Int)) = ((1 : Int), (1 : Int))) :=
  ⟨rfl, by decide⟩

/-- C4 (amended): for every valid pin assignment (four distinct in-range
pins) and valid device path, construction succeeds and leaves the engine
with the initial drive CS = 1 (deasserted), SCK = 0 and MOSI = 0 as the
cached driven state of the three output lines — the constructor initializes
the cache to `(0, 1, 1)` and then calls `update_pins(1, 0, 0)` — each output
line receiving exactly one set-value write before the constructor returns;
the CS mode starts AUTO. -/
theorem construct_idle_drive (e : Env) (pc : spi_pins_conf_t) (dev : String)
    (hdev : validDevPath (devPath dev) = true)
    (hpins : (∀ p ∈ pinsOf pc, 0 ≤ p ∧ p < 1000) ∧ (pinsOf pc).Pairwise (· ≠ ·)) :
    ∃ st, (construct e pc dev).2 = Except.ok st ∧
      st.curr_cs = 1 ∧ st.curr_sck = 0 ∧ st.curr_mosi = 0 ∧
      st.cs_mode = CSMode.auto ∧
      lineWriteVals Line.cs (construct e pc dev).1 = [1] ∧
      lineWriteVals Line.sck (construct e pc dev).1 = [0] ∧
      lineWriteVals Line.mosi (construct e pc dev).1 = [0] := by
  have hok := (validate_pins_ok_iff (pinsOf pc)).mpr hpins
  simp only [construct, hdev, hok, not_true, if_false]
  refine ⟨_, rfl, rfl, rfl, rfl, rfl, ?_, ?_, ?_⟩ <;>
    · rw [up_trace]
      simp

/-- Witness for C4 (amended) at pins `(0, 1, 2, 3)` and the default device
path. -/
theorem construct_idle_drive_witness :
    ∃ st, (construct envFF ⟨0, 1, 2, 3⟩ "").2 = Except.ok st ∧
      st.curr_cs = 1 ∧ st.curr_sck = 0 ∧ st.curr_mosi = 0 ∧
      st.cs_mode = CSMode.auto ∧
      lineWriteVals Line.cs (construct envFF ⟨0, 1, 2, 3⟩ "").1 = [1] ∧
      lineWriteVals Line.sck (construct envFF ⟨0, 1, 2, 3⟩ "").1 = [0] ∧
      lineWriteVals Line.mosi (construct envFF ⟨0, 1, 2, 3⟩ "").1 = [0] :=
  construct_idle_drive envFF ⟨0, 1, 2, 3⟩ "" (by decide) (by decide)

/-- C5: for every pin assignment containing an out-of-range pin (outside
`0..999`) or two equal pins, construction (with a well-formed device path)
fails with a configuration error — `pinOutOfRange` and `duplicatePin` are
distinct variants, and each failure kind maps to its own variant — and
performs no hardware access: the trace of performed hardware interactions is
empty (no chip open, no line requests, no writes). -/
theorem construct_invalid_pins (e : Env) (pc : spi_pins_conf_t) (dev : String)
    (hdev : validDevPath (devPath dev) = true)
    (hbad : ¬ ((∀ p ∈ pinsOf pc, 0 ≤ p ∧ p < 1000) ∧ (pinsOf pc).Pairwise (· ≠ ·))) :
    (construct e pc dev).1 = [] ∧
      ∃ er, (construct e pc dev).2 = Except.error er ∧
        (er = ConfigError.pinOutOfRange ∨ er = ConfigError.duplicatePin) ∧
        ((∀ p ∈ pinsOf pc, 0 ≤ p ∧ p < 1000) → er = ConfigError.duplicatePin) ∧
        ((pinsOf pc).Pairwise (· ≠ ·) → er = ConfigError.pinOutOfRange) := by
  rcases validate_pins_fail (pinsOf pc) hbad with ⟨er, her⟩
  simp only [construct, hdev, her, not_true, if_false]
  refine ⟨trivial, er, rfl, validate_pins_err_cases _ er her, ?_, ?_⟩
  · intro hin
    rcases validate_pins_err_cases _ er her with h | h
    · subst h
      exact absurd her (validate_pins_not_oor _ hin)
    · exact h
  · intro hpw
    rcases validate_pins_err_cases _ er her with h | h
    · exact h
    · subst h
      exact absurd her (validate_pins_not_dup _ hpw)

/-- Witness for C5 at the duplicate assignment `(5, 5, 2, 3)` and at the
out-of-range assignment `(1000, 1, 2, 3)`. -/
theorem construct_invalid_pins_witness :
    ((construct envFF ⟨5, 5, 2, 3⟩ "").1 = [] ∧
      ∃ er, (construct envFF ⟨5, 5, 2, 3⟩ "").2 = Except.error er ∧
        (er = ConfigError.pinOutOfRange ∨ er = ConfigError.duplicatePin) ∧
        ((∀ p ∈ pinsOf ⟨5, 5, 2, 3⟩, 0 ≤ p ∧ p < 1000) → er = ConfigError.duplicatePin) ∧
        ((pinsOf ⟨5, 5, 2, 3⟩).Pairwise (· ≠ ·) → er = ConfigError.pinOutOfRange)) ∧
      ((construct envFF ⟨1000, 1, 2, 3⟩ "").1 = [] ∧
        ∃ er, (construct envFF ⟨1000, 1, 2, 3⟩ "").2 = Except.error er ∧
          (er = ConfigError.pinOutOfRange ∨ er = ConfigError.duplicatePin) ∧
          ((∀ p ∈ pinsOf ⟨1000, 1, 2, 3⟩, 0 ≤ p ∧ p < 1000) →
            er = ConfigError.duplicatePin) ∧
          ((pinsOf ⟨1000, 1, 2, 3⟩).Pairwise (· ≠ ·) → er = ConfigError.pinOutOfRange)) :=
  ⟨construct_invalid_pins envFF ⟨5, 5, 2, 3⟩ "" (by decide) (by decide),
   construct_invalid_pins envFF ⟨1000, 1, 2, 3⟩ "" (by decide) (by decide)⟩

theorem clearCs_sckVals (e : Env) (s : SpiState) :
    lineWriteVals Line.sck (clearCs e s).trace = lineWriteVals Line.sck s.trace := by
  unfold clearCs
  rw [up_trace]
  simp

theorem clearCs_mosiVals (e : Env) (s : SpiState) :
    lineWriteVals Line.mosi (clearCs e s).trace = lineWriteVals Line.mosi s.trace := by
  unfold clearCs
  rw [up_trace]
  simp

theorem setCs_sckVals (e : Env) (s : SpiState) :
    lineWriteVals Line.sck (setCs e s).trace = lineWriteVals Line.sck s.trace := by
  unfold setCs
  rw [up_trace]
  simp

theorem setCs_mosiVals (e : Env) (s : SpiState) :
    lineWriteVals Line.mosi (setCs e s).trace = lineWriteVals Line.mosi s.trace := by
  unfold setCs
  rw [up_trace]
  simp

/-- C7: in AUTO CS mode with CS cached at its inactive level 1, a single
`spi_put` call (either overload, any arguments) leaves the cached CS value at
1, the inactive level it had before the call; and `spi_wr_and_rd` with
`write_count = 0` performs no clock transitions — in MANUAL mode it is a
complete no-op on the state, and in AUTO mode it leaves the SCK and MOSI
cache and the MISO read count unchanged, issues no SCK or MOSI writes, and
changes CS only by the assert/deassert bracketing writes `[0, 1]`. -/
theorem auto_cs_invariant (e : Env) :
    (∀ (junk : List Nat) (cmd : Nat) (tx : Option (List Nat)) (rxp : Bool) (len : Nat)
        (s : SpiState), s.cs_mode = CSMode.auto → s.curr_cs = 1 →
        (spi_put e junk cmd tx rxp len s).2.2.curr_cs = 1) ∧
      (∀ (tx : Option (List Nat)) (rxp : Bool) (len : Nat) (s : SpiState),
        s.cs_mode = CSMode.auto → s.curr_cs = 1 →
        (spi_put_raw e tx rxp len s).2.2.curr_cs = 1) ∧
      (∀ (wp : Option (List Nat)) (rp : Bool) (s : SpiState),
        s.cs_mode = CSMode.auto → s.curr_cs = 1 →
        (spi_wr_and_rd e 0 wp rp s).2.2.curr_sck = s.curr_sck ∧
          (spi_wr_and_rd e 0 wp rp s).2.2.curr_mosi = s.curr_mosi ∧
          (spi_wr_and_rd e 0 wp rp s).2.2.misoIdx = s.misoIdx ∧
          lineWriteVals Line.sck (spi_wr_and_rd e 0 wp rp s).2.2.trace =
            lineWriteVals Line.sck s.trace ∧
          lineWriteVals Line.mosi (spi_wr_and_rd e 0 wp rp s).2.2.trace =
            lineWriteVals Line.mosi s.trace ∧
          lineWriteVals Line.cs (spi_wr_and_rd e 0 wp rp s).2.2.trace =
            lineWriteVals Line.cs s.trace ++ [0, 1]) ∧
      (∀ (wp : Option (List Nat)) (rp : Bool) (s : SpiState),
        s.cs_mode = CSMode.manual →
        spi_wr_and_rd e 0 wp rp s = (0, if rp then some [] else none, s)) := by
  refine ⟨?_, ?_, ?_, ?_⟩
  · intro junk cmd tx rxp len s hmode hcs
    simp only [spi_put]
    exact wrrd_curr_cs_auto e (len + 1) _ rxp s hmode
  · intro tx rxp len s hmode hcs
    exact wrrd_curr_cs_auto e len tx rxp s hmode
  · intro wp rp s hmode hcs
    have hz : (spi_wr_and_rd e 0 wp rp s).2.2 = setCs e (clearCs e s) := by
      simp only [spi_wr_and_rd, spi_bytes]
      rw [if_pos hmode, if_pos (show (clearCs e s).cs_mode = CSMode.auto by
        rw [clearCs_cs_mode, hmode])]
    rw [hz]
    refine ⟨?_, ?_, ?_, ?_, ?_, ?_⟩
    · rw [setCs_curr_sck, clearCs_curr_sck]
    · rw [setCs_curr_mosi, clearCs_curr_mosi]
    · rw [setCs_misoIdx, clearCs_misoIdx]
    · rw [setCs_sckVals, clearCs_sckVals]
    · rw [setCs_mosiVals, clearCs_mosiVals]
    · rw [setCs_csVals, clearCs_csVals, clearCs_curr_cs, hcs]
      simp
  · intro wp rp s hmode
    simp [spi_wr_and_rd, spi_bytes, hmode]

/-- Witness for C7: a command-prefixed `spi_put` from the post-construction
state implies CS back at 1, and a zero-length MANUAL-mode transfer is a
state no-op. -/
theorem auto_cs_invariant_witness :
    (spi_put envFF [] 0 none false 0 initState).2.2.curr_cs = 1 ∧
      spi_wr_and_rd envFF 0 none true { initState with cs_mode := CSMode.manual } =
        (0, some [], { initState with cs_mode := CSMode.manual }) :=
  ⟨(auto_cs_invariant envFF).1 [] 0 none false 0 initState rfl rfl,
   (auto_cs_invariant envFF).2.2.2 none true { initState with cs_mode := CSMode.manual }
     rfl⟩

/-- C8: `spi_wr_then_rd`, started with CS cached at its inactive level,
asserts CS exactly once (before the write phase) and deasserts it exactly
once (after the read phase) — the values written to the CS line during the
call are exactly `[0, 1]` — and restores AUTO CS mode before returning;
in the model the intermediate transfers always report success, matching the
source where even reported errors do not skip the final `setCs`/mode
restore. -/
theorem wr_then_rd_cs_bracketing (e : Env) (tx : Option (List Nat)) (tl : Nat)
    (rxp : Bool) (rl : Nat) (s : SpiState) (hcs : s.curr_cs = 1) :
    lineWriteVals Line.cs (spi_wr_then_rd e tx tl rxp rl s).2.2.trace =
      lineWriteVals Line.cs s.trace ++ [0, 1] ∧
      (spi_wr_then_rd e tx tl rxp rl s).2.2.cs_mode = CSMode.auto := by
  have h1 : (clearCs e { s with cs_mode := CSMode.manual }).cs_mode = CSMode.manual := by
    rw [clearCs_cs_mode]
  have h2 : (spi_wr_and_rd e tl tx false
      (clearCs e { s with cs_mode := CSMode.manual })).2.2.cs_mode = CSMode.manual := by
    rw [wrrd_cs_mode]
    exact h1
  have h2cs : (spi_wr_and_rd e tl tx false
      (clearCs e { s with cs_mode := CSMode.manual })).2.2.curr_cs = 0 := by
    rw [wrrd_manual_curr_cs _ _ _ _ _ h1, clearCs_curr_cs]
  have h3cs : (spi_wr_and_rd e rl none rxp (spi_wr_and_rd e tl tx false
      (clearCs e { s with cs_mode := CSMode.manual })).2.2).2.2.curr_cs = 0 := by
    rw [wrrd_manual_curr_cs _ _ _ _ _ h2, h2cs]
  simp only [spi_wr_then_rd, wrrd_fst, ne_eq, not_true_eq_false, if_false]
  refine ⟨?_, trivial⟩
  rw [setCs_csVals, wrrd_manual_csVals _ _ _ _ _ h2, wrrd_manual_csVals _ _ _ _ _ h1,
    clearCs_csVals, h3cs, hcs]
  simp

/-- Witness for C8 at a concrete one-byte write, one-byte read sequence from
the post-construction state. -/
theorem wr_then_rd_cs_bracketing_witness :
    lineWriteVals Line.cs (spi_wr_then_rd envFF (some [5]) 1 true 1 initState).2.2.trace =
      lineWriteVals Line.cs initState.trace ++ [0, 1] ∧
      (spi_wr_then_rd envFF (some [5]) 1 true 1 initState).2.2.cs_mode = CSMode.auto :=
  wr_then_rd_cs_bracketing envFF (some [5]) 1 true 1 initState rfl

/-- C2 counterexample: with `timeout = 1` and a condition every byte
satisfies (`mask = 0`, `expected = 0`), the byte sampled on the single (and
hence within-timeout) read attempt satisfies `(byte & mask) == expected`,
yet `spi_wait` returns the timeout status `-ETIME`, not success: the byte of
the `timeout`-th attempt is sampled after the attempt counter already
reached `timeout`, so it is never checked. -/
theorem spi_wait_within_timeout_cex :
    (spi_wait (seqEnv (fun _ => false)) 0 0 0 1 initState).1 = negETIME ∧
      misoByte (fun _ => false) 8 &&& 0 = 0 ∧ negETIME ≠ 0 :=
  ⟨rfl, rfl, by decide⟩

/-- C2 (amended): for `1 ≤ timeout < 2^32`, with the MISO input following the
bit sequence `q` (the k-th poll attempt samples the byte at read index
`misoIdx + 8 + 8k`, after the 8 samples of the command byte): `spi_wait`
returns success (0) whenever some byte among the first `timeout - 1` read
attempts satisfies `(byte & mask) == expected` — one attempt fewer than the
claim states, since the `timeout`-th sample is never checked against the
condition — and returns the timeout status `-ETIME`, having made exactly
`timeout` one-byte read attempts, when no byte among those first
`timeout - 1` attempts satisfies it. -/
theorem spi_wait_poll_semantics (q : Nat → Bool) (cmd mask cond timeout : Nat)
    (s : SpiState) (h1 : 1 ≤ timeout) (hlt : timeout < 4294967296) :
    ((∃ k, k < timeout - 1 ∧ misoByte q (s.misoIdx + 8 + 8 * k) &&& mask = cond) →
        (spi_wait (seqEnv q) cmd mask cond timeout s).1 = 0) ∧
      ((∀ k, k < timeout - 1 → misoByte q (s.misoIdx + 8 + 8 * k) &&& mask ≠ cond) →
        (spi_wait (seqEnv q) cmd mask cond timeout s).1 = negETIME ∧
          (spi_wait (seqEnv q) cmd mask cond timeout s).2.misoIdx =
            s.misoIdx + 8 + 8 * timeout) := by
  have hwf : wait_fuel timeout = timeout := by
    unfold wait_fuel
    rw [Nat.mod_eq_of_lt hlt, if_neg (by omega)]
  have hr0 : (spi_wr_and_rd (seqEnv q) 1 (some [cmd]) false
      (clearCs (seqEnv q) { s with cs_mode := CSMode.manual })).2.2.misoIdx =
      s.misoIdx + 8 := by
    rw [wrrd_misoIdx, clearCs_misoIdx]
  constructor
  · rintro ⟨k, hk, hsat⟩
    have hloop := wait_loop_sat q mask cond timeout hlt timeout 0
      (spi_wr_and_rd (seqEnv q) 1 (some [cmd]) false
        (clearCs (seqEnv q) { s with cs_mode := CSMode.manual })).2.2
      (by omega)
      ⟨k, by omega, by rw [hr0]; exact hsat⟩
    simp only [spi_wait, hwf]
    rw [if_neg (by rw [Nat.mod_eq_of_lt hlt]; omega)]
  · intro hns
    have hloop := wait_loop_noSat q mask cond timeout hlt timeout 0
      (spi_wr_and_rd (seqEnv q) 1 (some [cmd]) false
        (clearCs (seqEnv q) { s with cs_mode := CSMode.manual })).2.2
      (by omega) h1
      (by
        intro k hk
        rw [hr0, show s.misoIdx + 8 + 8 * k = s.misoIdx + 8 + 8 * k from rfl]
        exact hns k hk)
    constructor
    · simp only [spi_wait, hwf]
      rw [if_pos (by rw [Nat.mod_eq_of_lt hlt]; exact hloop.1)]
    · simp only [spi_wait, hwf]
      rw [setCs_misoIdx, hloop.2, hr0]

/-- Witness for C2 (amended): a condition first satisfied on poll attempt 3
of 5 gives success, and a never-satisfied condition with `timeout = 4` gives
`-ETIME` after exactly 4 poll attempts (5 × 8 MISO samples in total). -/
theorem spi_wait_poll_semantics_witness :
    (spi_wait (seqEnv (fun i => 24 ≤ i)) 0 255 255 5 initState).1 = 0 ∧
      ((spi_wait (seqEnv (fun _ => false)) 0 255 255 4 initState).1 = negETIME ∧
        (spi_wait (seqEnv (fun _ => false)) 0 255 255 4 initState).2.misoIdx =
          0 + 8 + 8 * 4) :=
  ⟨(spi_wait_poll_semantics (fun i => 24 ≤ i) 0 255 255 5 initState (by decide)
      (by decide)).1 ⟨2, by decide, by decide⟩,
   (spi_wait_poll_semantics (fun _ => false) 0 255 255 4 initState (by decide)
      (by decide)).2 (by decide)⟩

/-- C10: the CS-mode field is AUTO at every public-operation boundary: the
constructor leaves it AUTO, both `spi_put` overloads leave it unchanged, and
`spi_wait` and `spi_wr_then_rd`, which temporarily set it to MANUAL, set it
back to AUTO before returning. -/
theorem cs_mode_auto_at_boundaries :
    (∀ (e : Env) (pc : spi_pins_conf_t) (dev : String) (st : SpiState),
        (construct e pc dev).2 = Except.ok st → st.cs_mode = CSMode.auto) ∧
      (∀ (e : Env) (junk : List Nat) (cmd : Nat) (tx : Option (List Nat)) (rxp : Bool)
        (len : Nat) (s : SpiState),
        (spi_put e junk cmd tx rxp len s).2.2.cs_mode = s.cs_mode) ∧
      (∀ (e : Env) (tx : Option (List Nat)) (rxp : Bool) (len : Nat) (s : SpiState),
        (spi_put_raw e tx rxp len s).2.2.cs_mode = s.cs_mode) ∧
      (∀ (e : Env) (cmd mask cond timeout : Nat) (s : SpiState),
        (spi_wait e cmd mask cond timeout s).2.cs_mode = CSMode.auto) ∧
      (∀ (e : Env) (tx : Option (List Nat)) (tl : Nat) (rxp : Bool) (rl : Nat)
        (s : SpiState),
        (spi_wr_then_rd e tx tl rxp rl s).2.2.cs_mode = CSMode.auto) := by
  refine ⟨?_, ?_, ?_, ?_, ?_⟩
  · intro e pc dev st h
    unfold construct at h
    by_cases hd : validDevPath (devPath dev)
    · rw [if_neg (by simp [hd])] at h
      rcases hv : validate_pins (pinsOf pc) with er | u
      · rw [hv] at h
        exact absurd h (by simp)
      · cases u
        rw [hv] at h
        cases Except.ok.inj h
        rfl
    · rw [if_pos (by simp [hd])] at h
      exact absurd h (by simp)
  · intro e junk cmd tx rxp len s
    simp only [spi_put]
    exact wrrd_cs_mode e (len + 1) _ rxp s
  · intro e tx rxp len s
    exact wrrd_cs_mode e len tx rxp s
  · intro e cmd mask cond timeout s
    rfl
  · intro e tx tl rxp rl s
    simp only [spi_wr_then_rd]

/-- Witness for C10's constructor conjunct at a concrete construction. -/
theorem cs_mode_auto_at_boundaries_witness :
    ((construct envFF ⟨0, 1, 2, 3⟩ "").2.toOption.getD initState).cs_mode =
      CSMode.auto :=
  cs_mode_auto_at_boundaries.1 envFF ⟨0, 1, 2, 3⟩ ""
    ((construct envFF ⟨0, 1, 2, 3⟩ "").2.toOption.getD initState) rfl
